import Mathlib

/-!
Verification development for the AcaRead repository (frontend exam client,
creation page and session list, plus the spec-described generation backend).

The definitions below are a shallow embedding of the TypeScript source:
JavaScript strings are Lean `String`, JavaScript `undefined`/`null` is
`Option`, JavaScript objects with possibly-missing fields are structures
with `Option` fields, and code that can raise a `TypeError` is modelled in
`Except Unit`.
-/

/-- Whitespace test used by the embedding of the JavaScript string
`trim` operations (space, tab, newline, carriage return). -/
def isWs (c : Char) : Bool :=
  c = ' ' || c = '\t' || c = '\n' || c = '\r'

/-- ASCII lower-casing of one character, as JavaScript `toLowerCase`
behaves on the ASCII answer strings handled by the app. -/
def lowerChar (c : Char) : Char :=
  if 65 ≤ c.toNat ∧ c.toNat ≤ 90 then Char.ofNat (c.toNat + 32) else c

/-- Strip leading and trailing whitespace from a character list. -/
def trimChars (l : List Char) : List Char :=
  ((l.dropWhile isWs).reverse.dropWhile isWs).reverse

/-- Embedding of the JavaScript string method `trim()`. -/
def jsTrim (s : String) : String :=
  String.mk (trimChars s.data)

/-- Embedding of the JavaScript string method `toLowerCase()`. -/
def jsLower (s : String) : String :=
  String.mk (s.data.map lowerChar)

/-- The normalization `s.trim().toLowerCase()` used by `calculateScore`
in `ExamClient.tsx`. -/
def normTrimLower (s : String) : String :=
  jsLower (jsTrim s)

/-- The normalization `s.toLowerCase().trim()` used by the short-answer
and sentence-completion components. -/
def normLowerTrim (s : String) : String :=
  jsTrim (jsLower s)

/-- JavaScript `a || d` for an optional string `a`: the default is taken
when `a` is absent or the empty string (both are falsy). -/
def jsOrStr (a : Option String) (d : String) : String :=
  match a with
  | some s => if s = "" then d else s
  | none => d

/-- JavaScript `a || d` for an optional number `a` (absent and `0` are
falsy). -/
def jsOrNat (a : Option Nat) (d : Nat) : Nat :=
  match a with
  | some v => if v = 0 then d else v
  | none => d

/-- A question of a generated exam task (`Question` in `lib/types`): only
the globally unique question number matters to the scoring code. -/
structure Question where
  question_number : Nat
deriving DecidableEq

/-- One task block of a generated exam, with the fields read by the exam
client components: the question list, and the optional `task_key` and
`instruction` strings used by `TrueFalseTask`. -/
structure ExamTask where
  questions : List Question
  task_key : Option String
  instruction : Option String
deriving DecidableEq

/-- The persisted exam artifact as read by `ExamClient.tsx`. -/
structure Exam where
  tasks : List ExamTask
deriving DecidableEq

/-- One entry of the per-task answer key returned by the submit endpoint:
a JavaScript object whose `answer` field may be missing. -/
structure AnsEntry where
  answer : Option String
deriving DecidableEq

/-- One per-task record of the answer key (`answers.tasks[tIdx]`): its
`answers` field may itself be missing, in which case the scoring code
dereferences `undefined` and throws. -/
structure TaskKey where
  answers : Option (List AnsEntry)
deriving DecidableEq

/-- The user answer map `Record<string, string>` as an association list
keyed by `q-<number>` strings. -/
def UserAnswers : Type := List (String × String)

/-- Property lookup on the user answer object: `userAnswers[key]` is
`undefined` when the key is absent. -/
def lookupUA (ua : UserAnswers) (key : String) : Option String :=
  (List.find? (fun p => p.1 = key) ua).map (fun p => p.2)

/-- The `q-<n>` key under which `ExamClient` stores the answer for
question number `n`. -/
def qKey (n : Nat) : String :=
  "q-" ++ toString n

/-- The value returned by `calculateScore`: the early-exit branch returns
an object with fields `score` and `total`, the main branch an object with
fields `correct` and `total`; an absent field is `none`. -/
structure ScoreResult where
  score : Option Nat
  correct : Option Nat
  total : Nat
deriving DecidableEq

/-- Evaluation of `answers.tasks[tIdx]?.answers[qIdx]?.answer?.trim().toLowerCase()`
from `ExamClient.calculateScore`.  When `tasks[tIdx]` is present but its
`answers` field is missing, the subscript on `undefined` throws. -/
def correctAnsAt (tasksKey : List TaskKey) (tIdx qIdx : Nat) :
    Except Unit (Option String) :=
  match tasksKey.get? tIdx with
  | none => .ok none
  | some tk =>
    match tk.answers with
    | none => .error ()
    | some lst => .ok (((lst.get? qIdx).bind (fun e => e.answer)).map normTrimLower)

/-- One iteration of the scoring loop body for question `q` at task index
`tIdx`, question index `qIdx`: whether the loop increments `correct`. -/
def scoreQ (ua : UserAnswers) (tasksKey : List TaskKey) (tIdx qIdx : Nat)
    (q : Question) : Except Unit Bool := do
  let userAns := (lookupUA ua (qKey q.question_number)).map normTrimLower
  let correctAns ← correctAnsAt tasksKey tIdx qIdx
  pure (match userAns with
    | some u => u ≠ "" && correctAns = some u
    | none => false)

/-- The inner `task.questions.forEach` of `calculateScore`, returning the
pair (correct increments, total increments) for one task. -/
def scoreQuestions (ua : UserAnswers) (tasksKey : List TaskKey) (tIdx : Nat) :
    List Question → Nat → Except Unit (Nat × Nat)
  | [], _ => .ok (0, 0)
  | q :: rest, qIdx => do
    let b ← scoreQ ua tasksKey tIdx qIdx q
    let (c, t) ← scoreQuestions ua tasksKey tIdx rest (qIdx + 1)
    pure ((if b then c + 1 else c), t + 1)

/-- The outer `exam?.tasks.forEach` of `calculateScore`. -/
def scoreTasks (ua : UserAnswers) (tasksKey : List TaskKey) :
    List ExamTask → Nat → Except Unit (Nat × Nat)
  | [], _ => .ok (0, 0)
  | t :: rest, tIdx => do
    let (c1, t1) ← scoreQuestions ua tasksKey tIdx t.questions 0
    let (c2, t2) ← scoreTasks ua tasksKey rest (tIdx + 1)
    pure (c1 + c2, t1 + t2)

/-- `calculateScore` from `ExamClient.tsx`.  The guard
`if (!answers || !answers.tasks) return { score: 0, total: 0 }` is the
`none` case of the collapsed `Option (List TaskKey)`; note the early
return carries a `score` field but no `correct` field. -/
def calculateScore (exam : Option Exam) (answers : Option (List TaskKey))
    (ua : UserAnswers) : Except Unit ScoreResult :=
  match answers with
  | none => .ok { score := some 0, correct := none, total := 0 }
  | some tasksKey => do
    let (c, t) ← scoreTasks ua tasksKey ((exam.map Exam.tasks).getD []) 0
    pure { score := none, correct := some c, total := t }

/-- Total number of questions across a list of tasks. -/
def totalQuestions (tasks : List ExamTask) : Nat :=
  (tasks.map (fun t => t.questions.length)).sum

/-- Well-formedness of the stored answer key as `calculateScore` needs it
to avoid a `TypeError`: every per-task record that is present carries its
`answers` array. -/
def wfKey (tks : List TaskKey) : Prop :=
  ∀ k ∈ tks, k.answers ≠ none

instance (tks : List TaskKey) : Decidable (wfKey tks) := by
  unfold wfKey; infer_instance

/-- The pure value of the key lookup of `calculateScore` (already
normalized), defined for well-formed keys. -/
def keyAt (tks : List TaskKey) (tIdx qIdx : Nat) : Option String :=
  (tks.get? tIdx).bind fun tk =>
    (((tk.answers.getD []).get? qIdx).bind (fun e => e.answer)).map normTrimLower

/-- Whether the scoring loop counts question `q` (at task index `tIdx`,
question index `qIdx`) as correct: the user answer must be present,
non-empty once normalized, and equal to the normalized key entry. -/
def qMatch (ua : UserAnswers) (tks : List TaskKey) (tIdx qIdx : Nat)
    (q : Question) : Bool :=
  match (lookupUA ua (qKey q.question_number)).map normTrimLower with
  | some u => u ≠ "" && keyAt tks tIdx qIdx = some u
  | none => false

/-- Number of questions of one task that the scoring loop counts
correct, starting at question index `qIdx`. -/
def matchCountQ (ua : UserAnswers) (tks : List TaskKey) (tIdx : Nat) :
    List Question → Nat → Nat
  | [], _ => 0
  | q :: rest, qIdx =>
    if qMatch ua tks tIdx qIdx q then matchCountQ ua tks tIdx rest (qIdx + 1) + 1
    else matchCountQ ua tks tIdx rest (qIdx + 1)

/-- Number of questions across the tasks that the scoring loop counts
correct, starting at task index `tIdx`. -/
def matchCountT (ua : UserAnswers) (tks : List TaskKey) :
    List ExamTask → Nat → Nat
  | [], _ => 0
  | t :: rest, tIdx =>
    matchCountQ ua tks tIdx t.questions 0 + matchCountT ua tks rest (tIdx + 1)

theorem correctAnsAt_wf (tks : List TaskKey) (tIdx qIdx : Nat)
    (h : wfKey tks) : correctAnsAt tks tIdx qIdx = .ok (keyAt tks tIdx qIdx) := by
  unfold correctAnsAt keyAt
  cases hg : tks.get? tIdx with
  | none => rfl
  | some tk =>
    have hm : tk ∈ tks := List.get?_mem hg
    cases ha : tk.answers with
    | none => exact absurd ha (h tk hm)
    | some lst => simp [ha]

theorem scoreQ_wf (ua : UserAnswers) (tks : List TaskKey) (tIdx qIdx : Nat)
    (q : Question) (h : wfKey tks) :
    scoreQ ua tks tIdx qIdx q = .ok (qMatch ua tks tIdx qIdx q) := by
  unfold scoreQ qMatch
  rw [correctAnsAt_wf tks tIdx qIdx h]
  rfl

theorem scoreQuestions_wf (ua : UserAnswers) (tks : List TaskKey) (tIdx : Nat)
    (h : wfKey tks) : ∀ (qs : List Question) (qIdx : Nat),
    scoreQuestions ua tks tIdx qs qIdx =
      .ok (matchCountQ ua tks tIdx qs qIdx, qs.length) := by
  intro qs
  induction qs with
  | nil => intro qIdx; rfl
  | cons q rest ih =>
    intro qIdx
    simp only [scoreQuestions, scoreQ_wf ua tks tIdx qIdx q h, ih (qIdx + 1),
      matchCountQ]
    cases hq : qMatch ua tks tIdx qIdx q <;> rfl

theorem scoreTasks_wf (ua : UserAnswers) (tks : List TaskKey)
    (h : wfKey tks) : ∀ (tasks : List ExamTask) (tIdx : Nat),
    scoreTasks ua tks tasks tIdx =
      .ok (matchCountT ua tks tasks tIdx, totalQuestions tasks) := by
  intro tasks
  induction tasks with
  | nil => intro tIdx; rfl
  | cons t rest ih =>
    intro tIdx
    simp only [scoreTasks, scoreQuestions_wf ua tks tIdx h t.questions 0,
      ih (tIdx + 1), matchCountT, totalQuestions, List.map_cons, List.sum_cons]
    rfl

theorem calculateScore_wf (exam : Exam) (tks : List TaskKey)
    (ua : UserAnswers) (h : wfKey tks) :
    calculateScore (some exam) (some tks) ua =
      .ok { score := none, correct := some (matchCountT ua tks exam.tasks 0),
            total := totalQuestions exam.tasks } := by
  show (do
    let p ← scoreTasks ua tks (((some exam).map Exam.tasks).getD []) 0
    match p with
    | (c, t) => pure { score := none, correct := some c, total := t }) =
      (Except.ok _ : Except Unit ScoreResult)
  rw [show (((some exam).map Exam.tasks).getD [] : List ExamTask) = exam.tasks
      from rfl, scoreTasks_wf ua tks h exam.tasks 0]
  rfl

theorem matchCountQ_full (ua : UserAnswers) (tks : List TaskKey) (tIdx : Nat) :
    ∀ (qs : List Question) (qIdx : Nat),
    (∀ j q, qs.get? j = some q → qMatch ua tks tIdx (qIdx + j) q = true) →
    matchCountQ ua tks tIdx qs qIdx = qs.length := by
  intro qs
  induction qs with
  | nil => intro qIdx _; rfl
  | cons q rest ih =>
    intro qIdx h
    have hq : qMatch ua tks tIdx qIdx q = true := by
      have := h 0 q rfl
      rwa [Nat.add_zero] at this
    have hrest : matchCountQ ua tks tIdx rest (qIdx + 1) = rest.length := by
      apply ih
      intro j p hj
      have := h (j + 1) p hj
      rwa [show qIdx + (j + 1) = qIdx + 1 + j by omega] at this
    simp [matchCountQ, hq, hrest]

theorem matchCountT_full (ua : UserAnswers) (tks : List TaskKey) :
    ∀ (tasks : List ExamTask) (tIdx : Nat),
    (∀ i t, tasks.get? i = some t → ∀ j q, t.questions.get? j = some q →
      qMatch ua tks (tIdx + i) j q = true) →
    matchCountT ua tks tasks tIdx = totalQuestions tasks := by
  intro tasks
  induction tasks with
  | nil => intro tIdx _; rfl
  | cons t rest ih =>
    intro tIdx h
    have ht : matchCountQ ua tks tIdx t.questions 0 = t.questions.length := by
      apply matchCountQ_full
      intro j q hj
      rw [Nat.zero_add]
      exact h 0 t rfl j q hj
    have hrest : matchCountT ua tks rest (tIdx + 1) = totalQuestions rest := by
      apply ih
      intro i u hi
      have := h (i + 1) u hi
      rwa [show tIdx + (i + 1) = tIdx + 1 + i by omega] at this
    simp [matchCountT, totalQuestions, ht, hrest]

theorem matchCountQ_empty_ua (tks : List TaskKey) (tIdx : Nat) :
    ∀ (qs : List Question) (qIdx : Nat),
    matchCountQ [] tks tIdx qs qIdx = 0 := by
  intro qs
  induction qs with
  | nil => intro qIdx; rfl
  | cons q rest ih =>
    intro qIdx
    have hq : qMatch [] tks tIdx qIdx q = false := rfl
    simp [matchCountQ, hq, ih (qIdx + 1)]

theorem matchCountT_empty_ua (tks : List TaskKey) :
    ∀ (tasks : List ExamTask) (tIdx : Nat),
    matchCountT [] tks tasks tIdx = 0 := by
  intro tasks
  induction tasks with
  | nil => intro tIdx; rfl
  | cons t rest ih =>
    intro tIdx
    simp [matchCountT, matchCountQ_empty_ua, ih (tIdx + 1)]

/-- C1 (amended): for a well-formed stored answer key, if every question
of the exam has a submitted answer that is non-empty after trimming and
lowercasing and equals the normalized stored key entry, then
`calculateScore` returns `correct` equal to `total`; and scoring the
empty submission returns `correct = 0` with no exception.  (The amendment
relative to the original claim: a matching answer must also be non-empty
after normalization, since the truthiness guard in the code skips empty
answers even when they equal the key.) -/
theorem calculateScore_perfect_submission (exam : Exam) (tks : List TaskKey)
    (ua : UserAnswers) (hwf : wfKey tks)
    (hfull : ∀ i t, exam.tasks.get? i = some t →
      ∀ j q, t.questions.get? j = some q →
      ∃ s, lookupUA ua (qKey q.question_number) = some s ∧
        normTrimLower s ≠ "" ∧ keyAt tks i j = some (normTrimLower s)) :
    calculateScore (some exam) (some tks) ua =
      .ok { score := none, correct := some (totalQuestions exam.tasks),
            total := totalQuestions exam.tasks } ∧
    calculateScore (some exam) (some tks) [] =
      .ok { score := none, correct := some 0,
            total := totalQuestions exam.tasks } := by
  constructor
  · rw [calculateScore_wf exam tks ua hwf]
    have hc : matchCountT ua tks exam.tasks 0 = totalQuestions exam.tasks := by
      apply matchCountT_full
      intro i t hi j q hj
      obtain ⟨s, hs, hne, hk⟩ := hfull i t hi j q hj
      rw [Nat.zero_add]
      unfold qMatch
      rw [hs]
      simp [hk, hne]
    rw [hc]
  · rw [calculateScore_wf exam tks [] hwf, matchCountT_empty_ua]

/-- Witness for the C1 theorem at a concrete one-question exam whose key
entry is "Paris" and whose submission is " PARIS ". -/
theorem calculateScore_perfect_submission_witness :
    wfKey [⟨some [⟨some "Paris"⟩]⟩] ∧
    calculateScore (some ⟨[⟨[⟨1⟩], none, none⟩]⟩) (some [⟨some [⟨some "Paris"⟩]⟩])
      [("q-1", " PARIS ")] =
      .ok { score := none, correct := some 1, total := 1 } ∧
    calculateScore (some ⟨[⟨[⟨1⟩], none, none⟩]⟩) (some [⟨some [⟨some "Paris"⟩]⟩])
      [] = .ok { score := none, correct := some 0, total := 1 } := by
  refine ⟨by decide, ?_⟩
  have h := calculateScore_perfect_submission ⟨[⟨[⟨1⟩], none, none⟩]⟩
    [⟨some [⟨some "Paris"⟩]⟩] [("q-1", " PARIS ")] (by decide) ?_
  · exact h
  · intro i t hi j q hj
    match i, hi with
    | 0, hi =>
      cases Option.some.inj hi
      match j, hj with
      | 0, hj =>
        cases Option.some.inj hj
        exact ⟨" PARIS ", rfl, by decide, by decide⟩

/-- C1 counterexample: with a stored key entry that trims to the empty
string, a submission whose every answer equals the key after trimming
and lowercasing is NOT scored 100 percent: the code returns 0 of 1
correct, refuting the claim as stated. -/
theorem calculateScore_whitespace_key_cex :
    normTrimLower "" = normTrimLower " " ∧
    calculateScore (some ⟨[⟨[⟨1⟩], none, none⟩]⟩) (some [⟨some [⟨some " "⟩]⟩])
      [("q-1", "")] =
      .ok { score := none, correct := some 0, total := 1 } ∧
    (0 : Nat) ≠ 1 := by
  refine ⟨by decide, rfl, by decide⟩

/-- C8 (amended): `calculateScore` does not throw and returns `total`
equal to the exam question count provided every present per-task key
record carries its `answers` array; and a question whose submitted
answer is absent, or empty after normalization, is never counted
correct, whatever the key looks like.  (The original claim of totality
over arbitrary partial key structures is refuted separately: a per-task
record without an `answers` array makes the code throw, and a missing
key structure yields `total = 0`, not the exam question count.) -/
theorem calculateScore_total_characterization :
    (∀ (exam : Exam) (tks : List TaskKey) (ua : UserAnswers), wfKey tks →
      calculateScore (some exam) (some tks) ua =
        .ok { score := none, correct := some (matchCountT ua tks exam.tasks 0),
              total := totalQuestions exam.tasks }) ∧
    (∀ (ua : UserAnswers) (tks : List TaskKey) (tIdx qIdx : Nat) (q : Question),
      (∀ s, lookupUA ua (qKey q.question_number) = some s → normTrimLower s = "") →
      qMatch ua tks tIdx qIdx q = false) := by
  constructor
  · intro exam tks ua hwf
    exact calculateScore_wf exam tks ua hwf
  · intro ua tks tIdx qIdx q h
    unfold qMatch
    cases hl : lookupUA ua (qKey q.question_number) with
    | none => rfl
    | some s =>
      have hs : normTrimLower s = "" := h s hl
      simp [hs]

/-- Witness for the C8 theorem: a two-question exam with a well-formed but
entry-less key scores no throw, `total = 2`, `correct = 0`. -/
theorem calculateScore_total_characterization_witness :
    wfKey [⟨some []⟩] ∧
    calculateScore (some ⟨[⟨[⟨1⟩, ⟨2⟩], none, none⟩]⟩) (some [⟨some []⟩])
      [("q-1", "x")] =
      .ok { score := none, correct := some 0, total := 2 } ∧
    qMatch [("q-9", " ")] [] 0 0 ⟨9⟩ = false := by
  refine ⟨by decide, ?_, ?_⟩
  · exact calculateScore_total_characterization.1 ⟨[⟨[⟨1⟩, ⟨2⟩], none, none⟩]⟩
      [⟨some []⟩] [("q-1", "x")] (by decide)
  · exact calculateScore_total_characterization.2 [("q-9", " ")] [] 0 0 ⟨9⟩
      (by decide)

/-- C8 counterexample: `calculateScore` is not total — a present per-task
key record whose `answers` array is missing makes the code subscript
`undefined` and throw; and with the key structure missing entirely the
returned `total` is 0 although the exam has one question. -/
theorem calculateScore_not_total_cex :
    calculateScore (some ⟨[⟨[⟨1⟩], none, none⟩]⟩) (some [⟨none⟩]) [] =
      .error () ∧
    calculateScore (some ⟨[⟨[⟨1⟩], none, none⟩]⟩) none [] =
      .ok { score := some 0, correct := none, total := 0 } ∧
    totalQuestions [⟨[⟨1⟩], none, none⟩] = 1 := by
  refine ⟨rfl, rfl, by decide⟩

/-- The pieces of `CreateExam` component state that `pollStatus` in
`create/page.tsx` reads or writes: the current step, the displayed
progress, the status message, the error banner, the `isProcessing` flag,
and whether the poll interval has been cleared. -/
structure PollState where
  step : Nat
  progress : Nat
  message : String
  error : Option String
  processing : Bool
  stopped : Bool
deriving DecidableEq

/-- A status poll response as read by `pollStatus`: the `status` string
and the possibly-missing `progress` and `message` fields. -/
structure StatusResp where
  status : String
  progress : Option Nat
  message : Option String
deriving DecidableEq

/-- Rendering of `status.progress` inside a template literal (an absent
field prints as "undefined" in JavaScript). -/
def jsNumStr (o : Option Nat) : String :=
  match o with
  | some p => toString p
  | none => "undefined"

/-- The `switch (status.status)` of `pollStatus` mapping a non-terminal
status to a step number and message; unknown statuses keep the defaults
`step = 2`, `msg = "Processing..."`. -/
def stageStepMsg (status : String) (pstr : String) : Nat × String :=
  match status with
  | "queued" => (2, "Queued for processing...")
  | "preprocessing" => (2, "Preprocessing content...")
  | "generating_passage" => (2, "Generating reading passage...")
  | "planning_strategy" => (3, "Planning question strategy...")
  | "generating_questions" => (4, "Generating questions... (" ++ pstr ++ "%)")
  | "finalizing" => (5, "Finalizing exam...")
  | _ => (2, "Processing...")

/-- One successful execution of the `pollStatus` body from
`create/page.tsx` as it acts on the component state: on "failed" it sets
the error to `status.message || "Generation failed"` and ends
processing; on "completed" it sets step 5 and progress 100; on any other
status it applies the step/message mapping and updates the progress to
`Math.max(prev, status.progress || 0)`.  The terminal branches run
`if (pollInterval) clearInterval(pollInterval)`, which leaves no live
interval whether or not one was registered; `stopped` records that
outcome.  Which polls actually fire depends on when `setInterval`
registers the interval — the first poll is awaited before registration —
which `handleProcessPolls` below models. -/
def pollStep (st : PollState) (r : StatusResp) : PollState :=
  if r.status = "failed" then
    { st with stopped := true,
              error := some (jsOrStr r.message "Generation failed"),
              processing := false }
  else if r.status = "completed" then
    { st with stopped := true, step := 5, progress := 100,
              message := "Exam generated successfully! Redirecting..." }
  else
    let sm := stageStepMsg r.status (jsNumStr r.progress)
    { st with step := sm.1,
              progress := max st.progress (jsOrNat r.progress 0),
              message := sm.2 }

/-- One poll outcome including the catch branch: when the status request
throws (`none`), `pollStatus` only logs to the console and the component
state is untouched, so no raw exception is ever displayed. -/
def pollObserve (st : PollState) (r : Option StatusResp) : PollState :=
  match r with
  | none => st
  | some resp => pollStep st resp

/-- The sequence of displayed states over a run of polls, as used for
the progress-monotonicity statement: each response is processed by
`pollStep` until a terminal branch has run.  (The exact set of polls
that fire — including the extra post-terminal polls caused by the
first poll running before the interval is registered — is refined by
`handleProcessPolls` below; those extra polls go through the same
`pollStep`, so the progress bounds proved over this trace carry over.) -/
def runPolls : PollState → List StatusResp → List PollState
  | st, [] => [st]
  | st, r :: rs => st :: (if st.stopped then [] else runPolls (pollStep st r) rs)

/-- Ticks of the 2-second interval of `handleProcess`: a poll fires only
while `pollInterval` is registered (`itv`); the "failed" and "completed"
branches execute `if (pollInterval) clearInterval(pollInterval)`, so a
terminal response observed on a tick removes the interval and no
further tick fires. -/
def intervalPolls : PollState → Bool → List StatusResp → List PollState
  | _, _, [] => []
  | st, itv, r :: rs =>
    if itv then
      pollStep st r ::
        intervalPolls (pollStep st r)
          (if r.status = "failed" || r.status = "completed" then false else itv)
          rs
    else []

/-- The polling phase of `handleProcess`: the first poll is awaited
(`await pollStatus()`) while `pollInterval` is still null — so a
terminal first response clears nothing — and only afterwards does
`pollInterval = setInterval(pollStatus, 2000)` register the interval,
unconditionally.  Returns the sequence of states observed. -/
def handleProcessPolls (st : PollState) : List StatusResp → List PollState
  | [] => []
  | r :: rest => pollStep st r :: intervalPolls (pollStep st r) true rest

theorem intervalPolls_cleared (st : PollState) (rs : List StatusResp) :
    intervalPolls st false rs = [] := by
  cases rs <;> rfl

theorem pollStep_progress_mono (st : PollState) (r : StatusResp)
    (h : st.progress ≤ 100) : st.progress ≤ (pollStep st r).progress := by
  unfold pollStep
  by_cases hf : r.status = "failed"
  · simp [hf]
  · by_cases hc : r.status = "completed"
    · simp [hf, hc, h]
    · simp [hf, hc]

theorem pollStep_progress_le (st : PollState) (r : StatusResp)
    (h : st.progress ≤ 100) (hp : jsOrNat r.progress 0 ≤ 100) :
    (pollStep st r).progress ≤ 100 := by
  unfold pollStep
  by_cases hf : r.status = "failed"
  · simpa [hf] using h
  · by_cases hc : r.status = "completed"
    · simp [hf, hc]
    · simp [hf, hc]
      exact ⟨h, hp⟩

theorem runPolls_head (st : PollState) (rs : List StatusResp) :
    (runPolls st rs).head? = some st := by
  cases rs <;> rfl

theorem runPolls_chain (rs : List StatusResp) : ∀ st : PollState,
    st.progress ≤ 100 →
    (∀ r ∈ rs, jsOrNat r.progress 0 ≤ 100) →
    List.Chain' (fun a b => a.progress ≤ b.progress) (runPolls st rs) := by
  induction rs with
  | nil => intro st _ _; simp [runPolls]
  | cons r rs ih =>
    intro st hst hr
    show List.Chain' _ (st :: (if st.stopped then [] else runPolls (pollStep st r) rs))
    by_cases hstop : st.stopped
    · simp [hstop]
    · simp only [hstop, if_neg, Bool.false_eq_true, not_false_eq_true, if_false]
      apply List.chain'_cons'.mpr
      constructor
      · intro y hy
        rw [runPolls_head] at hy
        cases hy
        exact pollStep_progress_mono st r hst
      · exact ih (pollStep st r)
          (pollStep_progress_le st r hst (hr r (by simp)))
          (fun r2 h2 => hr r2 (by simp [h2]))

/-- C2 (amended): for stage polls (neither "failed" nor "completed") the
displayed progress is exactly the maximum of the previous progress and
the polled progress with a missing value treated as 0; a "failed" poll
leaves the progress unchanged and a "completed" poll sets it to 100; and
over any run of polls whose progress values are at most 100, starting
from a displayed progress of at most 100, the observed progress values
never decrease.  (The amendment relative to the original claim: the
max-update rule only governs the non-terminal branch; the terminal
branches use their own rules, which still preserve monotonicity.) -/
theorem pollStatus_progress_monotone :
    (∀ (st : PollState) (r : StatusResp), r.status ≠ "failed" →
      r.status ≠ "completed" →
      (pollStep st r).progress = max st.progress (jsOrNat r.progress 0)) ∧
    (∀ (st : PollState) (r : StatusResp), r.status = "failed" →
      (pollStep st r).progress = st.progress) ∧
    (∀ (st : PollState) (r : StatusResp), r.status = "completed" →
      (pollStep st r).progress = 100) ∧
    (∀ (st : PollState) (rs : List StatusResp), st.progress ≤ 100 →
      (∀ r ∈ rs, jsOrNat r.progress 0 ≤ 100) →
      List.Chain' (fun a b => a.progress ≤ b.progress) (runPolls st rs)) := by
  refine ⟨?_, ?_, ?_, ?_⟩
  · intro st r hf hc
    simp [pollStep, hf, hc]
  · intro st r hf
    simp [pollStep, hf]
  · intro st r hc
    have hf : r.status ≠ "failed" := by rw [hc]; decide
    simp [pollStep, hf, hc]
  · intro st rs h1 h2
    exact runPolls_chain rs st h1 h2

/-- Witness for the C2 theorem: a concrete run starting at progress 20
(the value `handleProcess` sets before polling) through queued,
generating and completed polls has a non-decreasing progress trace. -/
theorem pollStatus_progress_monotone_witness :
    ((20 : Nat) ≤ 100 ∧
      ∀ r ∈ [⟨"queued", some 5, none⟩, ⟨"generating_questions", some 75, none⟩,
        ⟨"completed", some 100, none⟩].map (fun x : StatusResp => x),
        jsOrNat r.progress 0 ≤ 100) ∧
    List.Chain' (fun a b : PollState => a.progress ≤ b.progress)
      (runPolls ⟨2, 20, "Starting exam generation...", none, true, false⟩
        [⟨"queued", some 5, none⟩, ⟨"generating_questions", some 75, none⟩,
         ⟨"completed", some 100, none⟩]) := by
  refine ⟨⟨by decide, by decide⟩, ?_⟩
  exact pollStatus_progress_monotone.2.2.2
    ⟨2, 20, "Starting exam generation...", none, true, false⟩
    [⟨"queued", some 5, none⟩, ⟨"generating_questions", some 75, none⟩,
     ⟨"completed", some 100, none⟩] (by decide) (by decide)

/-- C2 counterexample: a "completed" poll with a missing progress field
sets the displayed progress to 100, not to the maximum of the previous
progress (20) and the polled progress treated as 0; the claimed update
rule does not hold for every poll. -/
theorem pollStatus_max_rule_cex :
    (pollStep ⟨2, 20, "Starting exam generation...", none, true, false⟩
      ⟨"completed", none, none⟩).progress = 100 ∧
    max (20 : Nat) (jsOrNat (none : Option Nat) 0) = 20 ∧ (100 : Nat) ≠ 20 := by
  refine ⟨by decide, by decide, by decide⟩

/-- C4 counterexample: a "failed" status observed by the immediate first
poll does not stop polling.  `handleProcess` awaits the first poll
before `pollInterval = setInterval(pollStatus, 2000)` runs, so inside
that first poll the guard `if (pollInterval) clearInterval(pollInterval)`
is a no-op and the interval is registered afterwards anyway: a further
poll is issued, and only a terminal status observed on a tick clears the
interval.  The trace below contains two observations although its first
response is already "failed". -/
theorem pollStatus_failed_first_poll_cex :
    handleProcessPolls ⟨2, 20, "Starting exam generation...", none, true, false⟩
      [⟨"failed", none, some "Model timeout"⟩,
       ⟨"failed", none, some "Model timeout"⟩] =
    [⟨2, 20, "Starting exam generation...", some "Model timeout", false, true⟩,
     ⟨2, 20, "Starting exam generation...", some "Model timeout", false, true⟩] ∧
    (2 : Nat) ≠ 1 := by
  refine ⟨rfl, by decide⟩

/-- C4 (amended): a poll that observes status "failed" ends processing
and shows a non-empty error message — the server message when present
and non-empty, otherwise the fixed fallback "Generation failed" — and a
poll whose request throws leaves the state untouched, so a raw
exception is never displayed.  Polling stops when the failure is
observed on a registered interval tick: that tick clears the interval
and no further tick fires.  (The amendment relative to the original
claim: the immediate first poll runs before `setInterval` registers the
interval, so a failure observed there clears nothing and at least one
further poll is issued — see the counterexample.) -/
theorem pollStatus_failed_behavior (st : PollState) (r : StatusResp)
    (hf : r.status = "failed") :
    (pollStep st r).processing = false ∧
    (∃ m, (pollStep st r).error = some m ∧ m ≠ "" ∧
      (∀ s, r.message = some s → s ≠ "" → m = s) ∧
      ((r.message = none ∨ r.message = some "") → m = "Generation failed")) ∧
    (∀ rs, intervalPolls st true (r :: rs) = [pollStep st r]) ∧
    (∀ (r2 : StatusResp) (rs : List StatusResp),
      2 ≤ (handleProcessPolls st (r :: r2 :: rs)).length) ∧
    (∀ st2 : PollState, pollObserve st2 none = st2) := by
  have hstep : pollStep st r =
      { st with stopped := true,
                error := some (jsOrStr r.message "Generation failed"),
                processing := false } := by
    simp [pollStep, hf]
  refine ⟨by rw [hstep], ?_, ?_, ?_, fun _ => rfl⟩
  · refine ⟨jsOrStr r.message "Generation failed", by rw [hstep], ?_, ?_, ?_⟩
    · cases hm : r.message with
      | none => simp [jsOrStr]
      | some s =>
        by_cases hs : s = "" <;> simp [jsOrStr, hs]
    · intro s hm hs
      simp [jsOrStr, hm, hs]
    · intro hm
      cases hm with
      | inl h => simp [jsOrStr, h]
      | inr h => simp [jsOrStr, h]
  · intro rs
    simp [intervalPolls, hf, intervalPolls_cleared]
  · intro r2 rs
    simp only [handleProcessPolls, intervalPolls, if_true, List.length_cons]
    omega

/-- Witness for the C4 theorem at a concrete poll response carrying a
server failure message, observed on a registered interval tick. -/
theorem pollStatus_failed_behavior_witness :
    (pollStep ⟨4, 60, "Generating questions... (60%)", none, true, false⟩
      ⟨"failed", some 60, some "Model timeout"⟩).processing = false ∧
    intervalPolls ⟨4, 60, "Generating questions... (60%)", none, true, false⟩
      true [⟨"failed", some 60, some "Model timeout"⟩] =
    [pollStep ⟨4, 60, "Generating questions... (60%)", none, true, false⟩
      ⟨"failed", some 60, some "Model timeout"⟩] := by
  exact ⟨(pollStatus_failed_behavior ⟨4, 60, "Generating questions... (60%)",
      none, true, false⟩ ⟨"failed", some 60, some "Model timeout"⟩ rfl).1,
    (pollStatus_failed_behavior ⟨4, 60, "Generating questions... (60%)", none,
      true, false⟩ ⟨"failed", some 60, some "Model timeout"⟩ rfl).2.2.1 []⟩

/-- The comparison the spec describes for per-question correctness:
case-insensitive and whitespace-trimmed equality of the submitted answer
and the key entry. -/
def specCaseTrimEq (u k : String) : Bool :=
  normLowerTrim u = normLowerTrim k

/-- Per-question correctness shown by `TrueFalseTask` (also the rule of
`MultipleChoiceTask` and `MatchingHeadingsTask`):
`isSubmitted && currentAnswer === correct`, where `currentAnswer` is
`answers[qKey] || ""` and `correct` may be `undefined`. -/
def tfShownCorrect (submitted : Bool) (ua : Option String)
    (key : Option String) : Bool :=
  submitted && (match key with
    | some k => jsOrStr ua "" = k
    | none => false)

/-- Per-question correctness shown by `ShortAnswerTask` (also
`SentenceCompletionTask`):
`isSubmitted && currentAnswer.toLowerCase().trim() === correct?.toLowerCase().trim()`. -/
def saShownCorrect (submitted : Bool) (ua : Option String)
    (key : Option String) : Bool :=
  submitted && (match key with
    | some k => normLowerTrim (jsOrStr ua "") = normLowerTrim k
    | none => false)

/-- C5 (amended): only the short-answer style tasks compare submitted
answers case-insensitively and trimmed; the True/False (and
multiple-choice and matching-headings) tasks use exact string equality,
which coincides with the normalized comparison when both values come
from the enumerated upper-case option set, but not in general. -/
theorem perQuestion_correctness_rules :
    (∀ (sub : Bool) (ua : Option String) (k : String),
      saShownCorrect sub ua (some k) = (sub && specCaseTrimEq (jsOrStr ua "") k)) ∧
    (∀ (sub : Bool) (ua : Option String) (k : String),
      tfShownCorrect sub ua (some k) = (sub && (jsOrStr ua "" = k))) ∧
    (∀ u k, u ∈ (["TRUE", "FALSE", "NOT GIVEN"] : List String) →
      k ∈ (["TRUE", "FALSE", "NOT GIVEN"] : List String) →
      tfShownCorrect true (some u) (some k) = specCaseTrimEq u k) := by
  refine ⟨fun sub ua k => rfl, fun sub ua k => rfl, ?_⟩
  intro u k hu hk
  fin_cases hu <;> fin_cases hk <;> decide

/-- Witness for the C5 theorem on the enumerated True/False domain. -/
theorem perQuestion_correctness_rules_witness :
    ("TRUE" ∈ (["TRUE", "FALSE", "NOT GIVEN"] : List String)) ∧
    tfShownCorrect true (some "TRUE") (some "NOT GIVEN") =
      specCaseTrimEq "TRUE" "NOT GIVEN" := by
  exact ⟨by decide,
    perQuestion_correctness_rules.2.2 "TRUE" "NOT GIVEN" (by decide) (by decide)⟩

/-- C5 counterexample: in a True/False task a submitted answer "TRUE"
against a stored key "true" matches case-insensitively and trimmed, yet
the component shows it as incorrect, because the comparison there is
exact string equality, not the normalized comparison the claim states
for every question type. -/
theorem trueFalse_not_normalized_cex :
    tfShownCorrect true (some "TRUE") (some "true") = false ∧
    specCaseTrimEq "TRUE" "true" = true := by
  refine ⟨by decide, by decide⟩

/-- JavaScript `s.includes(sub)` substring test. -/
def jsIncludes (s sub : String) : Bool :=
  decide (sub.data <:+: s.data)

/-- The yes/no-variant test of `TrueFalseTask`:
`task.task_key?.includes('yes_no') || task.instruction?.toLowerCase().includes('yes')`. -/
def isYesNoTask (t : ExamTask) : Bool :=
  (match t.task_key with
    | some k => jsIncludes k "yes_no"
    | none => false) ||
  (match t.instruction with
    | some i => jsIncludes (jsLower i) "yes"
    | none => false)

/-- The option buttons rendered by `TrueFalseTask`. -/
def trueFalseOptions (t : ExamTask) : List String :=
  if isYesNoTask t then ["YES", "NO", "NOT GIVEN"]
  else ["TRUE", "FALSE", "NOT GIVEN"]

/-- The value recorded when the user clicks the option button at index
`i` of a True/False task: nothing after submission, otherwise the label
of the clicked rendered button. -/
def trueFalseClick (submitted : Bool) (t : ExamTask) (i : Nat) :
    Option String :=
  if submitted then none else (trueFalseOptions t).get? i

/-- C6: every value a user can record in a True/False/Not Given task is
drawn from the fixed set TRUE/FALSE/NOT GIVEN, or YES/NO/NOT GIVEN when
the task is the yes/no variant as determined by the task key or the
instruction text; nothing else can be stored through this task. -/
theorem trueFalse_recorded_values (sub : Bool) (t : ExamTask) (i : Nat)
    (v : String) (h : trueFalseClick sub t i = some v) :
    (isYesNoTask t = true ∧ v ∈ (["YES", "NO", "NOT GIVEN"] : List String)) ∨
    (isYesNoTask t = false ∧ v ∈ (["TRUE", "FALSE", "NOT GIVEN"] : List String)) := by
  unfold trueFalseClick trueFalseOptions at h
  by_cases hsub : sub
  · rw [if_pos hsub] at h
    exact absurd h (by simp)
  · rw [if_neg hsub] at h
    by_cases hyn : isYesNoTask t
    · rw [if_pos hyn] at h
      exact Or.inl ⟨hyn, List.get?_mem h⟩
    · rw [if_neg hyn] at h
      exact Or.inr ⟨Bool.of_not_eq_true hyn, List.get?_mem h⟩

/-- Witness for the C6 theorem: clicking the first button of a plain
True/False task records "TRUE". -/
theorem trueFalse_recorded_values_witness :
    trueFalseClick false ⟨[], none, none⟩ 0 = some "TRUE" ∧
    ((isYesNoTask ⟨[], none, none⟩ = true ∧
      "TRUE" ∈ (["YES", "NO", "NOT GIVEN"] : List String)) ∨
     (isYesNoTask ⟨[], none, none⟩ = false ∧
      "TRUE" ∈ (["TRUE", "FALSE", "NOT GIVEN"] : List String))) := by
  exact ⟨by decide, trueFalse_recorded_values false ⟨[], none, none⟩ 0 "TRUE"
    (by decide)⟩

/-- The `examConfig` React state of `create/page.tsx`. -/
structure ExamConfigState where
  passageType : Nat
  totalQuestions : Nat
  numQuestionTypes : Nat
deriving DecidableEq

/-- The initial value of `examConfig` in `create/page.tsx`. -/
def initialExamConfig : ExamConfigState :=
  { passageType := 1, totalQuestions := 14, numQuestionTypes := 3 }

/-- The body sent to the generation endpoint by `handleProcess`. -/
structure GeneratePayload where
  passage_type : Nat
  total_questions : Nat
  num_question_types : Nat
deriving DecidableEq

/-- The payload `handleProcess` builds from the current `examConfig`. -/
def generatePayload (c : ExamConfigState) : GeneratePayload :=
  { passage_type := c.passageType,
    total_questions := c.totalQuestions,
    num_question_types := c.numQuestionTypes }

/-- A partial configuration as accepted by `handleConfigChange`
(`Partial<typeof examConfig>`). -/
structure ExamConfigPatch where
  passageType : Option Nat
  totalQuestions : Option Nat
  numQuestionTypes : Option Nat

/-- `handleConfigChange`: the object spread `{ ...examConfig, ...config }`. -/
def handleConfigChange (c : ExamConfigState) (p : ExamConfigPatch) :
    ExamConfigState :=
  { passageType := p.passageType.getD c.passageType,
    totalQuestions := p.totalQuestions.getD c.totalQuestions,
    numQuestionTypes := p.numQuestionTypes.getD c.numQuestionTypes }

/-- C7: without reconfiguration the generation request carries exactly
passage_type 1, total_questions 14 and num_question_types 3; applying an
empty configuration change never alters the configuration. -/
theorem default_generation_config :
    generatePayload initialExamConfig =
      { passage_type := 1, total_questions := 14, num_question_types := 3 } ∧
    (∀ c : ExamConfigState, handleConfigChange c ⟨none, none, none⟩ = c) :=
  ⟨rfl, fun _ => rfl⟩

/-- A browser `File` as far as the upload handlers inspect it: its name
and its MIME type (`file.type`). -/
structure JsFile where
  name : String
  mimeType : String
deriving DecidableEq

/-- The `FileUpload` component state touched by the drop/change
handlers: the selected file and the drag highlight flag. -/
structure UploadState where
  file : Option JsFile
  dragActive : Bool
deriving DecidableEq

/-- `FileUpload.handleDrop`: ignores the event when disabled, clears the
drag highlight, and when a first file exists, selects and forwards it
only if its MIME type is exactly "application/pdf" (otherwise it only
alerts).  The second component is the file forwarded to
`onFileSelected`, if any. -/
def handleDrop (disabled : Bool) (st : UploadState) (files : List JsFile) :
    UploadState × Option JsFile :=
  if disabled then (st, none)
  else
    let st1 := { st with dragActive := false }
    match files.head? with
    | none => (st1, none)
    | some f =>
      if f.mimeType = "application/pdf" then ({ st1 with file := some f }, some f)
      else (st1, none)

/-- `FileUpload.handleFileChange`: same PDF gate as `handleDrop` without
the drag-state update. -/
def handleFileChange (disabled : Bool) (st : UploadState)
    (files : List JsFile) : UploadState × Option JsFile :=
  if disabled then (st, none)
  else
    match files.head? with
    | none => (st, none)
    | some f =>
      if f.mimeType = "application/pdf" then ({ st with file := some f }, some f)
      else (st, none)

/-- C9: a file is forwarded into the exam-creation flow only when its
MIME type is exactly "application/pdf"; for any other type both handlers
leave the current selection unchanged and forward nothing. -/
theorem fileUpload_pdf_only :
    (∀ (d : Bool) (st : UploadState) (files : List JsFile) (f : JsFile),
      (handleDrop d st files).2 = some f → f.mimeType = "application/pdf") ∧
    (∀ (d : Bool) (st : UploadState) (files : List JsFile) (f : JsFile),
      (handleFileChange d st files).2 = some f → f.mimeType = "application/pdf") ∧
    (∀ (st : UploadState) (files : List JsFile) (f : JsFile),
      files.head? = some f → f.mimeType ≠ "application/pdf" →
      (handleDrop false st files).1.file = st.file ∧
      (handleDrop false st files).2 = none ∧
      handleFileChange false st files = (st, none)) := by
  refine ⟨?_, ?_, ?_⟩
  · intro d st files f h
    unfold handleDrop at h
    by_cases hd : d
    · rw [if_pos hd] at h
      exact absurd h (by simp)
    · rw [if_neg hd] at h
      cases hh : files.head? with
      | none => rw [hh] at h; exact absurd h (by simp)
      | some g =>
        rw [hh] at h
        by_cases hp : g.mimeType = "application/pdf"
        · simp only [hp, if_true] at h
          cases h
          exact hp
        · simp [hp] at h
  · intro d st files f h
    unfold handleFileChange at h
    by_cases hd : d
    · rw [if_pos hd] at h
      exact absurd h (by simp)
    · rw [if_neg hd] at h
      cases hh : files.head? with
      | none => rw [hh] at h; exact absurd h (by simp)
      | some g =>
        rw [hh] at h
        by_cases hp : g.mimeType = "application/pdf"
        · simp only [hp, if_true] at h
          cases h
          exact hp
        · simp [hp] at h
  · intro st files f hh hp
    refine ⟨?_, ?_, ?_⟩ <;>
      simp [handleDrop, handleFileChange, hh, hp]

/-- Witness for the C9 theorem: dropping a PNG file forwards nothing and
keeps the selection. -/
theorem fileUpload_pdf_only_witness :
    [(⟨"x.png", "image/png"⟩ : JsFile)].head? =
      some (⟨"x.png", "image/png"⟩ : JsFile) ∧
    (handleDrop false ⟨none, true⟩ [⟨"x.png", "image/png"⟩]).1.file = none ∧
    (handleDrop false ⟨none, true⟩ [⟨"x.png", "image/png"⟩]).2 = none := by
  have h := fileUpload_pdf_only.2.2 ⟨none, true⟩ [⟨"x.png", "image/png"⟩]
    ⟨"x.png", "image/png"⟩ (by decide) (by decide)
  exact ⟨by decide, h.1, h.2.1⟩

/-- A session row as displayed by `SessionList` (the fields its rendering
and delete handler read). -/
structure SessionInfo where
  session_id : String
  filename : String
  has_exam : Bool
  status : String
deriving DecidableEq

/-- `SessionList.handleDelete`: after the confirm dialog, a successful
`api.deleteSession` keeps every displayed session whose `session_id`
differs from the deleted id; a failed call (or a declined confirm)
leaves the list as it was. -/
def handleDelete (confirmed success : Bool) (sessions : List SessionInfo)
    (id : String) : List SessionInfo :=
  if confirmed then
    if success then sessions.filter (fun s => s.session_id != id)
    else sessions
  else sessions

/-- C10: when the displayed sessions have pairwise distinct ids, a
successful delete removes exactly the session carrying the given id and
keeps every other session in its original relative order; a failed
delete call leaves the displayed list entirely unchanged. -/
theorem sessionDelete_frame :
    (∀ (sessions : List SessionInfo) (id : String),
      handleDelete true false sessions id = sessions) ∧
    (∀ (l1 l2 : List SessionInfo) (s : SessionInfo) (id : String),
      ((l1 ++ s :: l2).map SessionInfo.session_id).Nodup →
      s.session_id = id →
      handleDelete true true (l1 ++ s :: l2) id = l1 ++ l2) := by
  constructor
  · intro sessions id; rfl
  · intro l1 l2 s id hnd hid
    show (l1 ++ s :: l2).filter (fun x => x.session_id != id) = l1 ++ l2
    rw [List.map_append, List.map_cons, List.nodup_append] at hnd
    obtain ⟨h1, h2, hdisj⟩ := hnd
    rw [List.nodup_cons] at h2
    have hl1 : ∀ x ∈ l1, (x.session_id != id) = true := by
      intro x hx
      have hmem : x.session_id ∈ l1.map SessionInfo.session_id :=
        List.mem_map_of_mem _ hx
      have hne : x.session_id ≠ id := by
        intro he
        exact hdisj hmem (by rw [he, ← hid]; exact List.mem_cons_self _ _)
      simpa using hne
    have hl2 : ∀ x ∈ l2, (x.session_id != id) = true := by
      intro x hx
      have hmem : x.session_id ∈ l2.map SessionInfo.session_id :=
        List.mem_map_of_mem _ hx
      have hne : x.session_id ≠ id := by
        intro he
        rw [he, ← hid] at hmem
        exact h2.1 hmem
      simpa using hne
    have hs : (s.session_id != id) = false := by simp [hid]
    rw [List.filter_append, List.filter_cons, hs]
    simp only [Bool.false_eq_true, if_false]
    rw [List.filter_eq_self.mpr hl1, List.filter_eq_self.mpr hl2]

/-- Witness for the C10 theorem: deleting the middle of three distinct
sessions removes exactly that session and keeps the other two in order. -/
theorem sessionDelete_frame_witness :
    (([(⟨"a", "f1", true, "exam"⟩ : SessionInfo)] ++
        (⟨"b", "f2", false, "queued"⟩ : SessionInfo) ::
        [(⟨"c", "f3", true, "exam"⟩ : SessionInfo)]).map
        SessionInfo.session_id).Nodup ∧
    handleDelete true true
      [⟨"a", "f1", true, "exam"⟩, ⟨"b", "f2", false, "queued"⟩,
       ⟨"c", "f3", true, "exam"⟩] "b" =
      [⟨"a", "f1", true, "exam"⟩, ⟨"c", "f3", true, "exam"⟩] := by
  refine ⟨by decide, ?_⟩
  exact sessionDelete_frame.2 [⟨"a", "f1", true, "exam"⟩]
    [⟨"c", "f3", true, "exam"⟩] ⟨"b", "f2", false, "queued"⟩ "b"
    (by decide) rfl

/-- Modelled from the spec: the generation pipeline stage enum of the
backend orchestrator, which is not among the provided sources (only the
front end consumes its status strings).  Ordered stages plus the two
terminal states. -/
inductive Stage where
  | queued
  | preprocessing
  | generating_passage
  | planning_strategy
  | generating_questions
  | finalizing
  | completed
  | failed
deriving DecidableEq

/-- Modelled from the spec: `completed` and `failed` are the only
terminal stages. -/
def Stage.terminal : Stage → Bool
  | .completed => true
  | .failed => true
  | _ => false

/-- Modelled from the spec: the error taxonomy entry returned when a
generation request hits a session whose job is still in flight. -/
inductive GenError where
  | jobAlreadyRunning
deriving DecidableEq

/-- Modelled from the spec: the backend handler for a generation request
(absent from the provided sources).  The in-memory job registry is an
association list from session id to the stage of its job.  A request
against a session whose job is in a non-terminal stage is rejected with
`JobAlreadyRunning` and starts nothing; otherwise a fresh queued job
replaces any terminal leftover for that session. -/
def requestGeneration (jobs : List (String × Stage)) (sid : String) :
    Except GenError (List (String × Stage)) :=
  match jobs.find? (fun p => p.1 = sid) with
  | some p =>
    if p.2.terminal then
      .ok ((sid, .queued) :: jobs.filter (fun q => q.1 != sid))
    else .error .jobAlreadyRunning
  | none => .ok ((sid, .queued) :: jobs)

/-- C3: a second generation request against a session whose job is in a
non-terminal stage is rejected with `JobAlreadyRunning` and starts no
second job; and any accepted request leaves exactly one job registered
for its session, so at most one active job exists per session. -/
theorem jobAlreadyRunning_rejection :
    (∀ (jobs : List (String × Stage)) (sid : String) (p : String × Stage),
      jobs.find? (fun q => q.1 = sid) = some p → p.2.terminal = false →
      requestGeneration jobs sid = .error .jobAlreadyRunning) ∧
    (∀ (jobs : List (String × Stage)) (sid : String)
      (jobs2 : List (String × Stage)),
      requestGeneration jobs sid = .ok jobs2 →
      (jobs2.filter (fun q => q.1 = sid)).length = 1) := by
  constructor
  · intro jobs sid p hf ht
    have heq : requestGeneration jobs sid =
        (if p.2.terminal = true then
          Except.ok ((sid, Stage.queued) :: jobs.filter (fun q => q.1 != sid))
        else Except.error GenError.jobAlreadyRunning) := by
      unfold requestGeneration
      rw [hf]
    rw [heq, ht]
    simp
  · intro jobs sid jobs2 h
    unfold requestGeneration at h
    cases hf : jobs.find? (fun p => p.1 = sid) with
    | none =>
      rw [hf] at h
      cases h
      have hnil : jobs.filter (fun q => decide (q.1 = sid)) = [] := by
        apply List.filter_eq_nil_iff.mpr
        intro x hx
        have := List.find?_eq_none.mp hf x hx
        simpa using this
      simp [List.filter_cons, hnil]
    | some p =>
      rw [hf] at h
      have h2 : (if p.2.terminal = true then
          Except.ok ((sid, Stage.queued) :: jobs.filter (fun q => q.1 != sid))
        else Except.error GenError.jobAlreadyRunning) = Except.ok jobs2 := h
      by_cases ht : p.2.terminal
      · rw [if_pos ht] at h2
        cases h2
        have hnil : (jobs.filter (fun q => q.1 != sid)).filter
            (fun q => decide (q.1 = sid)) = [] := by
          apply List.filter_eq_nil_iff.mpr
          intro x hx
          have := List.of_mem_filter hx
          simpa using this
        simp [List.filter_cons, hnil]
      · rw [if_neg ht] at h2
        cases h2

/-- Witness for the C3 theorem: a session with a job in the
`generating_questions` stage rejects a second request. -/
theorem jobAlreadyRunning_rejection_witness :
    [("s1", Stage.generating_questions)].find?
      (fun q => q.1 = "s1") = some ("s1", Stage.generating_questions) ∧
    requestGeneration [("s1", Stage.generating_questions)] "s1" =
      .error .jobAlreadyRunning := by
  refine ⟨by decide, ?_⟩
  exact jobAlreadyRunning_rejection.1 [("s1", Stage.generating_questions)]
    "s1" ("s1", Stage.generating_questions) (by decide) (by decide)
